import Mathlib

/-!
Shallow embedding of the ryzen_smu userspace library (src/lib/libsmu.c).

The library is a synchronous file-descriptor protocol shim: every operation is
a fixed sequence of lseek / read / write calls on pseudo-files exposed by the
kernel driver.  We embed each C function as a pure Lean function over an
explicit environment record that fixes the outcome of every system call the
function performs (whether each open succeeds, what each read delivers, how
many bytes each write reports).  Besides the result code, each embedded
operation also reports which protocol steps it actually performed, so that
claims about skipped steps (no read-back, no channel touched) are statable.

Machine integers are modelled as Nat (unsigned) or Int (signed), with explicit
mod 2^32 where a C conversion to a 32-bit unsigned type matters.
-/

namespace RyzenSmu

/-- Modelled from the spec: the numeric values of the result-kind enumeration
live in the header libsmu.h, which is not under src/.  The spec (section 6)
fixes the exhaustive set of result kinds and that driver-reported codes pass
through the status word unmodified; the claims depend only on the constants
being pairwise distinct, with OK the value the driver reports for success. -/
def SMU_Return_OK : Nat := 0x01

/-- Modelled from the spec: generic failure code (header not under src/). -/
def SMU_Return_Failed : Nat := 0xFF

/-- Modelled from the spec: unknown command code (header not under src/). -/
def SMU_Return_UnknownCmd : Nat := 0xFE

/-- Modelled from the spec: prerequisite-unmet code (header not under src/). -/
def SMU_Return_CmdRejectedPrereq : Nat := 0xFD

/-- Modelled from the spec: busy-rejection code (header not under src/). -/
def SMU_Return_CmdRejectedBusy : Nat := 0xFC

/-- Modelled from the spec: command-timeout code (header not under src/). -/
def SMU_Return_CommandTimeout : Nat := 0xFB

/-- Modelled from the spec: invalid-argument code (header not under src/). -/
def SMU_Return_InvalidArgument : Nat := 0xFA

/-- Modelled from the spec: unsupported-platform code (header not under src/). -/
def SMU_Return_Unsupported : Nat := 0xF9

/-- Modelled from the spec: insufficient-buffer code (header not under src/). -/
def SMU_Return_InsufficientSize : Nat := 0xF8

/-- Modelled from the spec: memory-mapping error code (header not under src/). -/
def SMU_Return_MappedError : Nat := 0xF7

/-- Modelled from the spec: driver-absent code (header not under src/). -/
def SMU_Return_DriverNotPresent : Nat := 0xF6

/-- Modelled from the spec: read/write error code (header not under src/). -/
def SMU_Return_RWError : Nat := 0xF5

/-- Modelled from the spec: the undefined-codename sentinel is the first
member (value 0) of the codename enumeration in the header (not under src/). -/
def CODENAME_UNDEFINED : Int := 0

/-- Modelled from the spec: the count sentinel closes the codename
enumeration; the spec and smu_codename_to_str list ten named processor
families after the undefined sentinel, so the count sentinel has value 11
(header not under src/). -/
def CODENAME_COUNT : Int := 11

/-- Modelled from the spec: sizeof(smu_arg_t), the fixed-size argument block
of six 32-bit words shared with the driver (header not under src/). -/
def SMU_ARGS_BYTES : Nat := 24

/-- Bound on the version read: sizeof("255.255.255\n") per libsmu.c line 40. -/
def MAX_SMU_VERSION_LEN : Nat := 12

/-! ### Byte-level helpers: C strings, ctype, sscanf("%d.%d.%d\n"), atoi -/

/-- ASCII decimal digit test, as used by the %d conversions and atoi. -/
def isDigit (b : Nat) : Bool := decide (48 ≤ b ∧ b ≤ 57)

/-- C isspace over the default locale: space and the five control blanks. -/
def isSpace (b : Nat) : Bool := decide (b = 32 ∨ (9 ≤ b ∧ b ≤ 13))

/-- Leading-whitespace skipping performed by %d and atoi. -/
def skipWs : List Nat → List Nat
  | [] => []
  | b :: r => if isSpace b then skipWs r else b :: r

/-- Consume a maximal run of decimal digits, accumulating their value the way
sscanf and atoi do (acc * 10 + digit); returns the value and the rest. -/
def scanDigits : List Nat → Nat → Nat × List Nat
  | [], acc => (acc, [])
  | b :: r, acc => if isDigit b then scanDigits r (acc * 10 + (b - 48)) else (acc, b :: r)

/-- An unsigned decimal token: fails (conversion failure) if the first byte is
not a digit or the input is exhausted. -/
def scanUInt (l : List Nat) : Option (Nat × List Nat) :=
  match l with
  | [] => none
  | b :: _ => if isDigit b then some (scanDigits l 0) else none

/-- One %d conversion: skip whitespace, optional sign (45 is the minus sign,
43 the plus sign), then digits. -/
def scanIntTok (l : List Nat) : Option (Int × List Nat) :=
  match skipWs l with
  | [] => none
  | b :: r =>
    if b = 45 then (scanUInt r).map (fun p => (-(p.1 : Int), p.2))
    else if b = 43 then (scanUInt r).map (fun p => ((p.1 : Int), p.2))
    else (scanUInt (b :: r)).map (fun p => ((p.1 : Int), p.2))

/-- sscanf(buf, "%d.%d.%d\n", ...) from libsmu.c line 64: the count of
successful conversions (with -1 standing for EOF, returned when the input is
exhausted before the first conversion) and the three parsed integers; an
integer whose conversion did not happen is reported as 0 and is never used by
the caller, which checks the count first.  The trailing whitespace directive
of the format cannot fail and does not change the count. -/
def sscanf3 (l : List Nat) : Int × Int × Int × Int :=
  match scanIntTok l with
  | none => (if (skipWs l).isEmpty then -1 else 0, 0, 0, 0)
  | some (a, r1) =>
    match r1 with
    | [] => (1, a, 0, 0)
    | d1 :: r2 =>
      if d1 ≠ 46 then (1, a, 0, 0)
      else
        match scanIntTok r2 with
        | none => (1, a, 0, 0)
        | some (b, r3) =>
          match r3 with
          | [] => (2, a, b, 0)
          | d2 :: r4 =>
            if d2 ≠ 46 then (2, a, b, 0)
            else
              match scanIntTok r4 with
              | none => (2, a, b, 0)
              | some (c, _) => (3, a, b, c)

/-- C atoi: skip whitespace, optional sign, digits; 0 when no digit follows.
Overflow of the C int is undefined behaviour and is left unbounded here. -/
def atoi (l : List Nat) : Int :=
  match skipWs l with
  | [] => 0
  | b :: r =>
    if b = 45 then -((scanDigits r 0).1 : Int)
    else if b = 43 then ((scanDigits r 0).1 : Int)
    else ((scanDigits (b :: r) 0).1 : Int)

/-- Value of a little-endian byte list (host order of the target platform). -/
def bytesLE : List Nat → Nat
  | [] => 0
  | b :: r => b % 256 + 256 * bytesLE r

/-- Overwrite the low data.length bytes of a 32-bit field held as a Nat, in
little-endian host order, leaving the higher bytes at their prior value: this
is what read(fd, &field, 4) does when it transfers fewer than 4 bytes. -/
def setLowBytesLE (old : Nat) (data : List Nat) : Nat :=
  old / 2 ^ (8 * data.length) * 2 ^ (8 * data.length) + bytesLE data

/-- The zero-filled 1024-byte stack buffer rd_buf (libsmu.c lines 49-52). -/
def rd_buf0 : List Nat := List.replicate 1024 0

/-- Effect of read(fd, buf, n) on a buffer: the delivered bytes overwrite the
front of the buffer, the rest keeps its prior contents. -/
def bufWrite (buf data : List Nat) : List Nat := data ++ buf.drop data.length

/-- The C string held in a buffer: its bytes up to the first NUL. -/
def cString (buf : List Nat) : List Nat := buf.takeWhile (fun b => b != 0)

/-- Outcome of one read(2) call, fixed by the environment: err models a -1
return (nothing delivered); otherwise data is what the file yields, and the
model truncates it to the requested count. -/
structure ReadR where
  err : Bool
  data : List Nat

/-- The ssize_t return value of the read call for a request of count bytes. -/
def readRet (r : ReadR) (count : Nat) : Int :=
  if r.err then -1 else ((min r.data.length count : Nat) : Int)

/-- The bytes the read call stores for a request of count bytes. -/
def readData (r : ReadR) (count : Nat) : List Nat :=
  if r.err then [] else r.data.take count

/-! ### The session object and discovery (smu_init_parse, smu_init) -/

/-- The discovered attributes of smu_obj_t that the embedded code reads and
writes; 32-bit unsigned fields as Nat, the codename enum field as Int. -/
structure SmuObj where
  smu_version : Nat
  codename : Int
  pm_table_version : Nat
  pm_table_size : Nat
  init : Bool

/-- The session after memset(obj, 0, sizeof(*obj)) in smu_init (line 112). -/
def zeroObj : SmuObj :=
  { smu_version := 0, codename := 0, pm_table_version := 0, pm_table_size := 0, init := false }

/-- Environment of smu_init_parse: outcome of each open and read it makes. -/
structure InitEnv where
  versionOpen : Bool
  versionRead : ReadR
  codenameOpen : Bool
  codenameRead : ReadR
  pmVersionOpen : Bool
  pmVersionRead : ReadR
  pmSizeOpen : Bool
  pmSizeRead : ReadR

/-- Contents of rd_buf after the version read (libsmu.c line 58). -/
def ver_buf (e : InitEnv) : List Nat :=
  bufWrite rd_buf0 (readData e.versionRead MAX_SMU_VERSION_LEN)

/-- Result of the sscanf on rd_buf (libsmu.c line 64). -/
def ver_scan (e : InitEnv) : Int × Int × Int × Int := sscanf3 (cString (ver_buf e))

/-- Contents of rd_buf after the codename read overwrites its first bytes
(libsmu.c line 74); the version bytes beyond the overwrite survive. -/
def cn_buf (e : InitEnv) : List Nat := bufWrite (ver_buf e) (readData e.codenameRead 3)

/-- The codename value atoi parses from rd_buf (libsmu.c line 80). -/
def cn_val (e : InitEnv) : Int := atoi (cString (cn_buf e))

/-- The version-packing expression of libsmu.c line 68, assigned to the 32-bit
unsigned field: ver_maj << 24 | ver_min << 8 | ver_rev.  For the in-range
nonnegative values the claims quantify over this matches the C expression; a
negative operand would be undefined behaviour in C and is clamped here. -/
def packVersion (maj mn rev : Int) : Nat :=
  ((maj.toNat <<< 24) ||| (mn.toNat <<< 8) ||| rev.toNat) % 2 ^ 32

/-- The PM-table part of smu_init_parse (libsmu.c lines 86-106): optional
pm_table_version file, then mandatory pm_table_size file. -/
def pm_stage (e : InitEnv) (obj : SmuObj) : Nat × SmuObj :=
  if !e.pmVersionOpen then (SMU_Return_OK, obj)
  else
    let obj1 := { obj with
      pm_table_version := setLowBytesLE obj.pm_table_version (readData e.pmVersionRead 4) }
    if readRet e.pmVersionRead 4 ≤ 0 then (SMU_Return_RWError, obj1)
    else if !e.pmSizeOpen then (SMU_Return_RWError, obj1)
    else
      let obj2 := { obj1 with
        pm_table_size := setLowBytesLE obj1.pm_table_size (readData e.pmSizeRead 4) }
      if readRet e.pmSizeRead 4 ≤ 0 then (SMU_Return_RWError, obj2)
      else (SMU_Return_OK, obj2)

/-- The codename part of smu_init_parse (libsmu.c lines 70-84) followed by the
PM-table part: open and read the codename file, atoi it, range-check it
against the sentinels. -/
def codename_stage (e : InitEnv) (obj : SmuObj) : Nat × SmuObj :=
  if !e.codenameOpen then (SMU_Return_DriverNotPresent, obj)
  else if readRet e.codenameRead 3 < 0 then (SMU_Return_RWError, obj)
  else
    let obj1 := { obj with codename := cn_val e }
    if obj1.codename ≤ CODENAME_UNDEFINED ∨ CODENAME_COUNT ≤ obj1.codename then
      (SMU_Return_Unsupported, obj1)
    else pm_stage e obj1

/-- smu_init_parse (libsmu.c lines 47-107): version file (mandatory), then
codename, then the optional PM-table files, mutating obj along the way. -/
def smu_init_parse (e : InitEnv) (obj : SmuObj) : Nat × SmuObj :=
  if !e.versionOpen then (SMU_Return_DriverNotPresent, obj)
  else if readRet e.versionRead MAX_SMU_VERSION_LEN < 0 then (SMU_Return_RWError, obj)
  else
    let s := ver_scan e
    if s.1 = -1 ∨ s.1 < 3 then (SMU_Return_RWError, obj)
    else codename_stage e { obj with smu_version := packVersion s.2.1 s.2.2.1 s.2.2.2 }

/-- smu_pm_tables_supported (libsmu.c lines 317-319). -/
def smu_pm_tables_supported (obj : SmuObj) : Bool :=
  obj.pm_table_size != 0 && obj.pm_table_version != 0

/-- Environment of smu_init: the discovery environment plus whether each
channel file open succeeds. -/
structure SmuEnv where
  parse : InitEnv
  smnOpen : Bool
  cmdOpen : Bool
  argsOpen : Bool
  pmOpen : Bool

/-- Result of smu_init: the return code, the session object, and whether the
function reached the channel-open step at all. -/
structure InitOut where
  ret : Nat
  obj : SmuObj
  channelOpenAttempted : Bool

/-- smu_init (libsmu.c lines 109-136): zero the object, run discovery and
propagate its failure, then open the three mandatory channels, the optional
PM-table channel, and mark the session initialized. -/
def smu_init (env : SmuEnv) : InitOut :=
  let pr := smu_init_parse env.parse zeroObj
  if pr.1 ≠ SMU_Return_OK then ⟨pr.1, pr.2, false⟩
  else if !(env.smnOpen && env.cmdOpen && env.argsOpen) then ⟨SMU_Return_RWError, pr.2, true⟩
  else if smu_pm_tables_supported pr.2 && !env.pmOpen then ⟨SMU_Return_RWError, pr.2, true⟩
  else ⟨SMU_Return_OK, { pr.2 with init := true }, true⟩

/-! ### Register read (smu_read_smn_addr) -/

/-- Environment of smu_read_smn_addr: the unsigned-int value of ret after the
4-byte address write (a -1 from write(2) appears as 2^32 - 1), the value of
ret after the 4-byte read, and the contents the result word holds after the
read executes (arbitrary: the driver supplies them). -/
structure SmnReadEnv where
  writeRet : Nat
  readRet : Nat
  resultAfterRead : Nat

/-- Result of smu_read_smn_addr: the return code, the final contents of the
caller-supplied result word, and whether the read step was attempted. -/
structure SmnReadOut where
  ret : Nat
  result : Nat
  readAttempted : Bool

/-- The final ternary of smu_read_smn_addr (libsmu.c line 176): whatever ret
holds at BREAK_OUT is compared against sizeof(unsigned int). -/
def smn_result (ret : Nat) : Nat :=
  if ret = 4 then SMU_Return_OK else SMU_Return_RWError

/-- smu_read_smn_addr (libsmu.c lines 159-177): write the 4-byte address; on a
short write jump to BREAK_OUT without reading; otherwise read 4 bytes into the
result word; in both cases return the ternary over the last ret. -/
def smu_read_smn_addr (env : SmnReadEnv) (result0 : Nat) : SmnReadOut :=
  if env.writeRet ≠ 4 then ⟨smn_result env.writeRet, result0, false⟩
  else ⟨smn_result env.readRet, env.resultAfterRead, true⟩

/-! ### Command execution (smu_send_command) -/

/-- Environment of smu_send_command: the unsigned-int byte counts of the
argument-block write, the opcode write, the status read, the 32-bit status
word the command channel yields, and the byte count of the argument-block
read-back. -/
structure CmdEnv where
  argsWriteRet : Nat
  cmdWriteRet : Nat
  statusReadRet : Nat
  status : Nat
  argsReadRet : Nat

/-- Result of smu_send_command: the return value and whether the
argument-channel read-back step was attempted. -/
structure CmdOut where
  ret : Nat
  argsReadAttempted : Bool

/-- smu_send_command (libsmu.c lines 195-236).  Note the source returns ret
verbatim after a full argument read-back, i.e. the byte count sizeof(args.args)
rather than SMU_Return_OK; the embedding reproduces this. -/
def smu_send_command (env : CmdEnv) : CmdOut :=
  if env.argsWriteRet ≠ SMU_ARGS_BYTES then ⟨SMU_Return_RWError, false⟩
  else if env.cmdWriteRet ≠ 4 then ⟨SMU_Return_RWError, false⟩
  else
    let ret := if env.statusReadRet ≠ 4 then SMU_Return_RWError else env.status
    if ret = SMU_Return_OK then
      if env.argsReadRet ≠ SMU_ARGS_BYTES then ⟨SMU_Return_RWError, true⟩
      else ⟨env.argsReadRet, true⟩
    else ⟨ret, false⟩

/-! ### Table read (smu_read_pm_table) -/

/-- Result of smu_read_pm_table: the return code, whether the table lock was
acquired, and whether the table-channel read was performed. -/
structure PmTableOut where
  ret : Nat
  lockTaken : Bool
  readAttempted : Bool

/-- Conversion of the int read count to unsigned for the comparison against
the 32-bit pm_table_size field (libsmu.c line 249). -/
def uint32ofInt (i : Int) : Nat := (i % (2 ^ 32 : Int)).toNat

/-- smu_read_pm_table (libsmu.c lines 238-257): reject a length mismatch with
InsufficientSize before taking the lock or touching the channel; otherwise
read pm_table_size bytes and demand a full transfer. -/
def smu_read_pm_table (obj : SmuObj) (dst_len : Nat) (r : ReadR) : PmTableOut :=
  if dst_len ≠ obj.pm_table_size then ⟨SMU_Return_InsufficientSize, false, false⟩
  else if uint32ofInt (readRet r obj.pm_table_size) ≠ obj.pm_table_size then
    ⟨SMU_Return_RWError, true, true⟩
  else ⟨SMU_Return_OK, true, true⟩

/-! ### Helper lemmas about discovery -/

theorem readRet_not_neg (r : ReadR) (c : Nat) (h : r.err = false) :
    ¬ readRet r c < 0 := by
  simp [readRet, h]

theorem setLowBytesLE_zero (data : List Nat) : setLowBytesLE 0 data = bytesLE data := by
  simp [setLowBytesLE]

/-- Successful version parse and in-range codename drive smu_init_parse to the
PM-table stage, with the version and codename fields already assigned. -/
theorem smu_init_parse_reach_pm (e : InitEnv) (obj : SmuObj)
    (hv1 : e.versionOpen = true) (hv2 : e.versionRead.err = false)
    (hv3 : 3 ≤ (ver_scan e).1)
    (hc1 : e.codenameOpen = true) (hc2 : e.codenameRead.err = false)
    (hc3 : CODENAME_UNDEFINED < cn_val e) (hc4 : cn_val e < CODENAME_COUNT) :
    smu_init_parse e obj = pm_stage e
      { obj with
        smu_version := packVersion (ver_scan e).2.1 (ver_scan e).2.2.1 (ver_scan e).2.2.2,
        codename := cn_val e } := by
  have h1 := readRet_not_neg e.versionRead MAX_SMU_VERSION_LEN hv2
  have h2 := readRet_not_neg e.codenameRead 3 hc2
  have h3 : ¬ ((ver_scan e).1 = -1 ∨ (ver_scan e).1 < 3) := by omega
  simp only [CODENAME_UNDEFINED, CODENAME_COUNT] at hc3 hc4
  have h4 : ¬ (cn_val e ≤ CODENAME_UNDEFINED ∨ CODENAME_COUNT ≤ cn_val e) := by
    simp only [CODENAME_UNDEFINED, CODENAME_COUNT]
    omega
  simp [smu_init_parse, codename_stage, hv1, hc1, h1, h2, h3, h4]

/-- Successful version parse but out-of-range codename makes smu_init_parse
return Unsupported. -/
theorem smu_init_parse_unsupported (e : InitEnv) (obj : SmuObj)
    (hv1 : e.versionOpen = true) (hv2 : e.versionRead.err = false)
    (hv3 : 3 ≤ (ver_scan e).1)
    (hc1 : e.codenameOpen = true) (hc2 : e.codenameRead.err = false)
    (hc : cn_val e ≤ CODENAME_UNDEFINED ∨ CODENAME_COUNT ≤ cn_val e) :
    (smu_init_parse e obj).1 = SMU_Return_Unsupported := by
  have h1 := readRet_not_neg e.versionRead MAX_SMU_VERSION_LEN hv2
  have h2 := readRet_not_neg e.codenameRead 3 hc2
  have h3 : ¬ ((ver_scan e).1 = -1 ∨ (ver_scan e).1 < 3) := by omega
  simp [smu_init_parse, codename_stage, hv1, hc1, h1, h2, h3, hc]

/-! ### Claim theorems: command execution and register read -/

/-- C1: in every command exchange in which the 4-byte status read from the
command channel succeeds but yields a status different from OK,
smu_send_command skips the argument-channel read-back step entirely and
returns that driver-reported status unchanged as its result. -/
theorem smu_send_command_nonok_passthrough (env : CmdEnv)
    (h1 : env.argsWriteRet = SMU_ARGS_BYTES) (h2 : env.cmdWriteRet = 4)
    (h3 : env.statusReadRet = 4) (h4 : env.status ≠ SMU_Return_OK) :
    smu_send_command env = ⟨env.status, false⟩ := by
  simp [smu_send_command, h1, h2, h3, h4]

/-- Witness for C1: a concrete exchange whose driver-reported status is the
busy-rejection code, passed through with the read-back skipped. -/
theorem smu_send_command_nonok_passthrough_witness :
    smu_send_command ⟨24, 4, 4, SMU_Return_CmdRejectedBusy, 0⟩ =
      ⟨SMU_Return_CmdRejectedBusy, false⟩ :=
  smu_send_command_nonok_passthrough ⟨24, 4, 4, SMU_Return_CmdRejectedBusy, 0⟩
    (by decide) rfl rfl (by decide)

/-- C3: in every command exchange where the status read back from the command
channel equals OK but the read-back of the full argument block transfers fewer
bytes than the block size, smu_send_command returns ReadWriteError, overriding
the previously-OK status. -/
theorem smu_send_command_short_readback_overrides (env : CmdEnv)
    (h1 : env.argsWriteRet = SMU_ARGS_BYTES) (h2 : env.cmdWriteRet = 4)
    (h3 : env.statusReadRet = 4) (h4 : env.status = SMU_Return_OK)
    (h5 : env.argsReadRet ≠ SMU_ARGS_BYTES) :
    smu_send_command env = ⟨SMU_Return_RWError, true⟩ := by
  simp [smu_send_command, h1, h2, h3, h4, h5]

/-- Witness for C3: a concrete OK-status exchange whose argument read-back
transfers 20 of the 24 bytes. -/
theorem smu_send_command_short_readback_overrides_witness :
    smu_send_command ⟨24, 4, 4, SMU_Return_OK, 20⟩ = ⟨SMU_Return_RWError, true⟩ :=
  smu_send_command_short_readback_overrides ⟨24, 4, 4, SMU_Return_OK, 20⟩
    (by decide) rfl rfl rfl (by decide)

/-- C8: in every register read exchange, a 4-byte address write transferring a
byte count different from 4 yields ReadWriteError without attempting the read;
otherwise the read is attempted and the result is OK exactly when 4 bytes were
read; in all cases the result is either OK or ReadWriteError. -/
theorem smu_read_smn_addr_cases (env : SmnReadEnv) (r0 : Nat) :
    (env.writeRet ≠ 4 →
      smu_read_smn_addr env r0 = ⟨SMU_Return_RWError, r0, false⟩) ∧
    (env.writeRet = 4 →
      (smu_read_smn_addr env r0).readAttempted = true ∧
      ((smu_read_smn_addr env r0).ret = SMU_Return_OK ↔ env.readRet = 4)) ∧
    ((smu_read_smn_addr env r0).ret = SMU_Return_OK ∨
      (smu_read_smn_addr env r0).ret = SMU_Return_RWError) := by
  refine ⟨fun h => ?_, fun h => ?_, ?_⟩
  · simp [smu_read_smn_addr, smn_result, h]
  · constructor
    · simp [smu_read_smn_addr, h]
    · by_cases hr : env.readRet = 4 <;>
        simp [smu_read_smn_addr, smn_result, h, hr, SMU_Return_OK, SMU_Return_RWError]
  · by_cases h : env.writeRet = 4 <;> by_cases hr : env.readRet = 4 <;>
      simp [smu_read_smn_addr, smn_result, h, hr]

/-- Witness for C8: a concrete exchange whose address write reports 3 bytes. -/
theorem smu_read_smn_addr_cases_witness :
    smu_read_smn_addr ⟨3, 4, 77⟩ 9 = ⟨SMU_Return_RWError, 9, false⟩ :=
  (smu_read_smn_addr_cases ⟨3, 4, 77⟩ 9).1 (by decide)

/-- C9: in every register read exchange in which the address write transfers a
byte count other than 4, the caller-supplied result word is never written: it
still holds its prior value when the call returns ReadWriteError. -/
theorem smu_read_smn_addr_frame (env : SmnReadEnv) (r0 : Nat)
    (h : env.writeRet ≠ 4) :
    (smu_read_smn_addr env r0).result = r0 ∧
    (smu_read_smn_addr env r0).ret = SMU_Return_RWError := by
  simp [smu_read_smn_addr, smn_result, h]

/-- Witness for C9: a concrete failed address write leaves the result word at
its prior value 123. -/
theorem smu_read_smn_addr_frame_witness :
    (smu_read_smn_addr ⟨2, 0, 55⟩ 123).result = 123 ∧
    (smu_read_smn_addr ⟨2, 0, 55⟩ 123).ret = SMU_Return_RWError :=
  smu_read_smn_addr_frame ⟨2, 0, 55⟩ 123 (by decide)

/-- C4: every call to the table read operation with a declared destination
length not exactly equal to the discovered pmTableSize returns
InsufficientSize immediately, without acquiring the table lock and without
performing any read on the table channel. -/
theorem smu_read_pm_table_size_mismatch (obj : SmuObj) (dst_len : Nat) (r : ReadR)
    (h : dst_len ≠ obj.pm_table_size) :
    smu_read_pm_table obj dst_len r = ⟨SMU_Return_InsufficientSize, false, false⟩ := by
  simp [smu_read_pm_table, h]

/-- Witness for C4: discovered size 4096, provided length 100. -/
theorem smu_read_pm_table_size_mismatch_witness :
    smu_read_pm_table ⟨0, 5, 1, 4096, true⟩ 100 ⟨false, []⟩ =
      ⟨SMU_Return_InsufficientSize, false, false⟩ :=
  smu_read_pm_table_size_mismatch ⟨0, 5, 1, 4096, true⟩ 100 ⟨false, []⟩ (by decide)

/-! ### Canonical decimal byte strings and scanner round-trip lemmas -/

/-- The canonical ASCII decimal representation of a natural number, as a byte
list (no sign, no leading zeros). -/
def natBytes (n : Nat) : List Nat :=
  if n < 10 then [48 + n] else natBytes (n / 10) ++ [48 + n % 10]
termination_by n
decreasing_by exact Nat.div_lt_self (by omega) (by omega)

/-- The byte contents of a version file of the form MAJ.MIN.REV newline. -/
def verListBytes (maj mn rev : Nat) : List Nat :=
  natBytes maj ++ 46 :: (natBytes mn ++ 46 :: (natBytes rev ++ [10]))

/-- The first byte of a list is not an ASCII digit (vacuously for []). -/
def headNotDigit : List Nat → Prop
  | [] => True
  | b :: _ => isDigit b = false

theorem natBytes_all_digits (n : Nat) : ∀ b ∈ natBytes n, isDigit b = true := by
  induction n using Nat.strong_induction_on with
  | _ n ih =>
    rw [natBytes]
    by_cases h : n < 10
    · simp only [if_pos h]
      intro b hb
      simp only [List.mem_singleton] at hb
      subst hb
      simp only [isDigit, decide_eq_true_eq]
      omega
    · simp only [if_neg h]
      intro b hb
      rcases List.mem_append.mp hb with hb | hb
      · exact ih (n / 10) (Nat.div_lt_self (by omega) (by omega)) b hb
      · simp only [List.mem_singleton] at hb
        subst hb
        have := Nat.mod_lt n (show 0 < 10 by omega)
        simp only [isDigit, decide_eq_true_eq]
        omega

theorem natBytes_ne_nil (n : Nat) : natBytes n ≠ [] := by
  rw [natBytes]
  by_cases h : n < 10
  · simp [h]
  · simp only [if_neg h]
    intro hc
    exact absurd (List.append_eq_nil.mp hc).2 (by simp)

theorem natBytes_foldl (n acc : Nat) :
    (natBytes n).foldl (fun a b => a * 10 + (b - 48)) acc =
      acc * 10 ^ (natBytes n).length + n := by
  induction n using Nat.strong_induction_on generalizing acc with
  | _ n ih =>
    rw [natBytes]
    by_cases h : n < 10
    · simp [if_pos h]
    · simp only [if_neg h, List.foldl_append, List.foldl_cons, List.foldl_nil,
        List.length_append, List.length_singleton]
      rw [ih (n / 10) (Nat.div_lt_self (by omega) (by omega)) acc]
      have hm : 48 + n % 10 - 48 = n % 10 := by omega
      rw [hm, Nat.pow_succ]
      have hd := Nat.div_add_mod n 10
      ring_nf
      omega

theorem natBytes_length_le (k n : Nat) (h : n < 10 ^ (k + 1)) :
    (natBytes n).length ≤ k + 1 := by
  induction k generalizing n with
  | zero =>
    rw [natBytes]
    norm_num at h
    simp [if_pos h]
  | succ k ih =>
    rw [natBytes]
    by_cases h10 : n < 10
    · simp [if_pos h10]
    · simp only [if_neg h10, List.length_append, List.length_singleton]
      have : n / 10 < 10 ^ (k + 1) := by
        have : 10 ^ (k + 1) * 10 = 10 ^ (k + 1 + 1) := (Nat.pow_succ ..).symm
        omega
      have := ih (n / 10) this
      omega

theorem scanDigits_append (ds : List Nat) (rest : List Nat) (acc : Nat)
    (hd : ∀ b ∈ ds, isDigit b = true) (hr : headNotDigit rest) :
    scanDigits (ds ++ rest) acc =
      (ds.foldl (fun a b => a * 10 + (b - 48)) acc, rest) := by
  induction ds generalizing acc with
  | nil =>
    simp only [List.nil_append, List.foldl_nil]
    cases rest with
    | nil => rfl
    | cons b r =>
      simp only [headNotDigit] at hr
      simp [scanDigits, hr]
  | cons d ds ih =>
    have hdd : isDigit d = true := hd d (List.mem_cons_self ..)
    simp only [List.cons_append, scanDigits, hdd, if_pos, List.foldl_cons]
    exact ih (acc * 10 + (d - 48)) (fun b hb => hd b (List.mem_cons_of_mem _ hb))

theorem scanUInt_append (ds : List Nat) (rest : List Nat)
    (hne : ds ≠ []) (hd : ∀ b ∈ ds, isDigit b = true) (hr : headNotDigit rest) :
    scanUInt (ds ++ rest) =
      some (ds.foldl (fun a b => a * 10 + (b - 48)) 0, rest) := by
  cases ds with
  | nil => exact absurd rfl hne
  | cons d ds =>
    have hdd : isDigit d = true := hd d (List.mem_cons_self ..)
    simp only [List.cons_append, scanUInt, hdd, if_pos]
    exact congrArg some (scanDigits_append (d :: ds) rest 0 hd hr)

theorem isSpace_of_isDigit (b : Nat) (h : isDigit b = true) : isSpace b = false := by
  simp only [isDigit, decide_eq_true_eq] at h
  simp only [isSpace, decide_eq_false_iff_not]
  omega

theorem skipWs_not_space (b : Nat) (r : List Nat) (h : isSpace b = false) :
    skipWs (b :: r) = b :: r := by
  simp [skipWs, h]

/-- A %d conversion over a digit string followed by a non-digit rest parses
the canonical decimal value and leaves the rest untouched. -/
theorem scanIntTok_natBytes (n : Nat) (rest : List Nat) (hr : headNotDigit rest) :
    scanIntTok (natBytes n ++ rest) = some ((n : Int), rest) := by
  obtain ⟨d, ds, hds⟩ : ∃ d ds, natBytes n = d :: ds := by
    cases h : natBytes n with
    | nil => exact absurd h (natBytes_ne_nil n)
    | cons d ds => exact ⟨d, ds, rfl⟩
  have hdd : isDigit d = true := by
    have := natBytes_all_digits n
    rw [hds] at this
    exact this d (List.mem_cons_self ..)
  have hdig : (48 : Nat) ≤ d ∧ d ≤ 57 := by
    simpa [isDigit] using hdd
  have h45 : ¬ d = 45 := by omega
  have h43 : ¬ d = 43 := by omega
  have hsp : isSpace d = false := isSpace_of_isDigit d hdd
  have hscan := scanUInt_append (natBytes n) rest (natBytes_ne_nil n)
    (natBytes_all_digits n) hr
  have hval : (natBytes n).foldl (fun a b => a * 10 + (b - 48)) 0 = n := by
    rw [natBytes_foldl]
    simp
  rw [hval] at hscan
  rw [hds] at hscan ⊢
  rw [List.cons_append] at hscan
  simp only [List.cons_append, scanIntTok, skipWs_not_space d _ hsp, h45, h43,
    if_neg, if_false, hscan]
  simp

theorem headNotDigit_cons_46 (r : List Nat) : headNotDigit (46 :: r) := by
  simp [headNotDigit, isDigit]

theorem headNotDigit_cons_10 (r : List Nat) : headNotDigit (10 :: r) := by
  simp [headNotDigit, isDigit]

/-- The sscanf model parses a canonical MAJ.MIN.REV newline string into three
conversions with the expected values. -/
theorem sscanf3_verListBytes (maj mn rev : Nat) :
    sscanf3 (verListBytes maj mn rev) = (3, (maj : Int), (mn : Int), (rev : Int)) := by
  have h1 := scanIntTok_natBytes maj (46 :: (natBytes mn ++ 46 :: (natBytes rev ++ [10])))
    (headNotDigit_cons_46 _)
  have h2 := scanIntTok_natBytes mn (46 :: (natBytes rev ++ [10]))
    (headNotDigit_cons_46 _)
  have h3 := scanIntTok_natBytes rev [10] (headNotDigit_cons_10 _)
  simp only [verListBytes, sscanf3, h1, h2, h3]
  simp

/-! ### C strings in the shared read buffer -/

theorem takeWhile_append_of_pos (p : Nat → Bool) (l r : List Nat)
    (h : ∀ b ∈ l, p b = true) :
    (l ++ r).takeWhile p = l ++ r.takeWhile p := by
  induction l with
  | nil => simp
  | cons b l ih =>
    have hb : p b = true := h b (List.mem_cons_self ..)
    simp only [List.cons_append, List.takeWhile_cons, hb, if_pos]
    rw [ih (fun x hx => h x (List.mem_cons_of_mem _ hx))]

theorem takeWhile_drop_replicate_zero (n k : Nat) :
    ((List.replicate n (0 : Nat)).drop k).takeWhile (fun b => b != 0) = [] := by
  rw [List.drop_replicate]
  cases h : n - k with
  | zero => simp
  | succ m => simp [List.replicate_succ]

/-- Writing a NUL-free byte list at the start of the zeroed read buffer makes
exactly that list the buffer's C string. -/
theorem cString_bufWrite (data : List Nat) (h : ∀ b ∈ data, b ≠ 0) :
    cString (bufWrite rd_buf0 data) = data := by
  simp only [cString, bufWrite, rd_buf0]
  rw [takeWhile_append_of_pos]
  · rw [takeWhile_drop_replicate_zero, List.append_nil]
  · intro b hb
    simpa using h b hb

theorem verListBytes_no_nul (maj mn rev : Nat) :
    ∀ b ∈ verListBytes maj mn rev, b ≠ 0 := by
  intro b hb
  simp only [verListBytes, List.mem_append, List.mem_cons, List.not_mem_nil,
    or_false] at hb
  have h1 := natBytes_all_digits maj b
  have h2 := natBytes_all_digits mn b
  have h3 := natBytes_all_digits rev b
  simp only [isDigit, decide_eq_true_eq] at h1 h2 h3
  rcases hb with hb | hb | hb | hb | hb | hb
  · have h := h1 hb
    omega
  · omega
  · have h := h2 hb
    omega
  · omega
  · have h := h3 hb
    omega
  · omega

theorem verListBytes_length_le (maj mn rev : Nat)
    (h1 : maj ≤ 255) (h2 : mn ≤ 255) (h3 : rev ≤ 255) :
    (verListBytes maj mn rev).length ≤ 12 := by
  have l1 := natBytes_length_le 2 maj (by norm_num; omega)
  have l2 := natBytes_length_le 2 mn (by norm_num; omega)
  have l3 := natBytes_length_le 2 rev (by norm_num; omega)
  simp only [verListBytes, List.length_append, List.length_cons,
    List.length_singleton, List.length_nil]
  omega

/-! ### Disjoint shifted fields: bitwise or equals addition -/

theorem lor_shiftLeft_eq_add (a b n : Nat) (hb : b < 2 ^ n) :
    a <<< n ||| b = 2 ^ n * a + b := by
  apply Nat.eq_of_testBit_eq
  intro j
  rw [Nat.testBit_or, Nat.testBit_shiftLeft, Nat.testBit_mul_pow_two_add a hb j]
  by_cases hj : j < n
  · have : ¬ j ≥ n := by omega
    simp [hj, this]
  · have hbf : b.testBit j = false :=
      Nat.testBit_lt_two_pow
        (lt_of_lt_of_le hb (Nat.pow_le_pow_right (by omega) (by omega)))
    have : j ≥ n := by omega
    simp [hj, hbf, this]

/-- The version-packing expression places the three byte-bounded fields in
disjoint bit ranges, so the bitwise ors coincide with plain addition. -/
theorem packVersion_eq (maj mn rev : Nat)
    (h1 : maj ≤ 255) (h2 : mn ≤ 255) (h3 : rev ≤ 255) :
    packVersion (maj : Int) (mn : Int) (rev : Int) =
      maj * 2 ^ 24 + mn * 2 ^ 8 + rev ∧
    packVersion (maj : Int) (mn : Int) (rev : Int) =
      (maj <<< 24) ||| (mn <<< 8) ||| rev := by
  have h8 : (2 : Nat) ^ 8 = 256 := by norm_num
  have h24 : (2 : Nat) ^ 24 = 16777216 := by norm_num
  have h32 : (2 : Nat) ^ 32 = 4294967296 := by norm_num
  have hrev : rev < 2 ^ 8 := by
    rw [h8]
    omega
  have hinner : mn <<< 8 ||| rev = 2 ^ 8 * mn + rev :=
    lor_shiftLeft_eq_add mn rev 8 hrev
  have hsum : 2 ^ 8 * mn + rev < 2 ^ 24 := by
    rw [h8, h24]
    omega
  have houter : maj <<< 24 ||| (2 ^ 8 * mn + rev) =
      2 ^ 24 * maj + (2 ^ 8 * mn + rev) :=
    lor_shiftLeft_eq_add maj (2 ^ 8 * mn + rev) 24 hsum
  have hor : (maj <<< 24) ||| (mn <<< 8) ||| rev =
      maj * 2 ^ 24 + mn * 2 ^ 8 + rev := by
    rw [Nat.lor_assoc, hinner, houter]
    ring
  have hlt : maj * 2 ^ 24 + mn * 2 ^ 8 + rev < 2 ^ 32 := by
    rw [h8, h24, h32]
    omega
  have hpack : packVersion (maj : Int) (mn : Int) (rev : Int) =
      (maj <<< 24) ||| (mn <<< 8) ||| rev := by
    simp only [packVersion, Int.toNat_natCast]
    rw [hor]
    exact Nat.mod_eq_of_lt hlt
  exact ⟨hpack.trans hor, hpack⟩

/-! ### Field preservation through the later discovery stages -/

theorem pm_stage_preserves (e : InitEnv) (obj : SmuObj) :
    (pm_stage e obj).2.smu_version = obj.smu_version ∧
    (pm_stage e obj).2.codename = obj.codename := by
  simp only [pm_stage]
  split
  · exact ⟨rfl, rfl⟩
  · split
    · exact ⟨rfl, rfl⟩
    · split
      · exact ⟨rfl, rfl⟩
      · split
        · exact ⟨rfl, rfl⟩
        · exact ⟨rfl, rfl⟩

theorem codename_stage_preserves_version (e : InitEnv) (obj : SmuObj) :
    (codename_stage e obj).2.smu_version = obj.smu_version := by
  simp only [codename_stage]
  split
  · rfl
  · split
    · rfl
    · split
      · rfl
      · exact (pm_stage_preserves e _).1

/-! ### Concrete discovery environments used by witnesses -/

/-- A healthy discovery environment whose PM-table version file is absent:
version file 1.2.3, codename file 5, both PM files unopenable. -/
def cenvNoPm : SmuEnv :=
  ⟨⟨true, ⟨false, [49, 46, 50, 46, 51, 10]⟩, true, ⟨false, [53, 10]⟩,
    false, ⟨false, []⟩, false, ⟨false, []⟩⟩, true, true, true, true⟩

/-- A discovery environment whose version file holds a single non-digit byte,
so that fewer than three integers are parsed. -/
def cenvBadVersion : InitEnv :=
  ⟨true, ⟨false, [120]⟩, true, ⟨false, [53, 10]⟩,
    false, ⟨false, []⟩, false, ⟨false, []⟩⟩

/-- A discovery environment whose codename file holds 0, the undefined
sentinel. -/
def cenvBadCodename : SmuEnv :=
  ⟨⟨true, ⟨false, [49, 46, 50, 46, 51, 10]⟩, true, ⟨false, [48, 10]⟩,
    false, ⟨false, []⟩, false, ⟨false, []⟩⟩, true, true, true, true⟩

/-- A discovery environment with a readable PM-version file but an unopenable
PM-size file. -/
def cenvNoSize : InitEnv :=
  ⟨true, ⟨false, [49, 46, 50, 46, 51, 10]⟩, true, ⟨false, [53, 10]⟩,
    true, ⟨false, [1, 0, 0, 0]⟩, false, ⟨false, []⟩⟩

/-- A discovery environment whose PM-version read delivers a single byte and
whose PM-size read delivers 4 bytes encoding 4096. -/
def cenvShortPm : InitEnv :=
  ⟨true, ⟨false, [49, 46, 50, 46, 51, 10]⟩, true, ⟨false, [53, 10]⟩,
    true, ⟨false, [7]⟩, true, ⟨false, [0, 16, 0, 0]⟩⟩

/-! ### Claim theorems: discovery -/

/-- C2: for every version-file input of the form MAJ.MIN.REV newline with the
three decimal integers in the range 0 to 255, discovery parses them and stores
into the version field the value of MAJ shifted by 24 or MIN shifted by 8 or
REV, which equals MAJ * 2^24 + MIN * 2^8 + REV, no bits of one field
overlapping another; and whenever fewer than three integers are parsed,
discovery returns ReadWriteError instead. -/
theorem smu_init_parse_version_claims :
    (∀ (maj mn rev : Nat), maj ≤ 255 → mn ≤ 255 → rev ≤ 255 →
      ∀ (e : InitEnv) (obj : SmuObj),
      e.versionOpen = true → e.versionRead.err = false →
      e.versionRead.data = verListBytes maj mn rev →
      (smu_init_parse e obj).2.smu_version = (maj <<< 24) ||| (mn <<< 8) ||| rev ∧
      (smu_init_parse e obj).2.smu_version = maj * 2 ^ 24 + mn * 2 ^ 8 + rev) ∧
    (∀ (e : InitEnv) (obj : SmuObj),
      e.versionOpen = true → e.versionRead.err = false →
      (ver_scan e).1 < 3 →
      (smu_init_parse e obj).1 = SMU_Return_RWError) := by
  constructor
  · intro maj mn rev h1 h2 h3 e obj hv he hd
    have hlen := verListBytes_length_le maj mn rev h1 h2 h3
    have hcs : cString (ver_buf e) = verListBytes maj mn rev := by
      simp only [ver_buf, readData, he, Bool.false_eq_true, if_false, hd,
        MAX_SMU_VERSION_LEN]
      rw [List.take_of_length_le hlen]
      exact cString_bufWrite _ (verListBytes_no_nul maj mn rev)
    have hscan : ver_scan e = (3, (maj : Int), (mn : Int), (rev : Int)) := by
      rw [ver_scan, hcs, sscanf3_verListBytes]
    have hnneg := readRet_not_neg e.versionRead MAX_SMU_VERSION_LEN he
    have hcond : ¬ ((ver_scan e).1 = -1 ∨ (ver_scan e).1 < 3) := by
      rw [hscan]
      norm_num
    have hpk := packVersion_eq maj mn rev h1 h2 h3
    have hred : (smu_init_parse e obj).2.smu_version =
        packVersion (maj : Int) (mn : Int) (rev : Int) := by
      simp only [smu_init_parse, hv, Bool.not_true, Bool.false_eq_true, if_false,
        hnneg, hcond, hscan]
      exact codename_stage_preserves_version e _
    exact ⟨hred.trans hpk.2, hred.trans hpk.1⟩
  · intro e obj hv he hcnt
    have hnneg := readRet_not_neg e.versionRead MAX_SMU_VERSION_LEN he
    have hcond : (ver_scan e).1 = -1 ∨ (ver_scan e).1 < 3 := Or.inr hcnt
    simp [smu_init_parse, hv, hnneg, hcond]

/-- Witness for C2: the version file 1.2.3 packs to 16777731, and a version
file holding a single letter x parses fewer than three integers and yields
ReadWriteError. -/
theorem smu_init_parse_version_claims_witness :
    (smu_init_parse cenvNoPm.parse zeroObj).2.smu_version =
      1 * 2 ^ 24 + 2 * 2 ^ 8 + 3 ∧
    (smu_init_parse cenvBadVersion zeroObj).1 = SMU_Return_RWError := by
  constructor
  · exact (smu_init_parse_version_claims.1 1 2 3 (by omega) (by omega) (by omega)
      cenvNoPm.parse zeroObj rfl rfl
      (by simp [cenvNoPm, verListBytes, natBytes])).2
  · exact smu_init_parse_version_claims.2 cenvBadVersion zeroObj rfl rfl (by decide)

/-- C7: for every codename value parsed from the codename file that is less
than or equal to the undefined sentinel (including 0) or greater than or equal
to the count sentinel, discovery returns Unsupported, and initialization
propagates this failure before any channel handle is opened. -/
theorem smu_init_codename_unsupported (env : SmuEnv)
    (hv1 : env.parse.versionOpen = true) (hv2 : env.parse.versionRead.err = false)
    (hv3 : 3 ≤ (ver_scan env.parse).1)
    (hc1 : env.parse.codenameOpen = true) (hc2 : env.parse.codenameRead.err = false)
    (hc : cn_val env.parse ≤ CODENAME_UNDEFINED ∨ CODENAME_COUNT ≤ cn_val env.parse) :
    (smu_init_parse env.parse zeroObj).1 = SMU_Return_Unsupported ∧
    (smu_init env).ret = SMU_Return_Unsupported ∧
    (smu_init env).channelOpenAttempted = false := by
  have hp := smu_init_parse_unsupported env.parse zeroObj hv1 hv2 hv3 hc1 hc2 hc
  refine ⟨hp, ?_, ?_⟩ <;>
    simp [smu_init, hp, SMU_Return_Unsupported, SMU_Return_OK]

/-- Witness for C7: codename file contents 0 followed by a newline parse to
the undefined sentinel and abort initialization before handle acquisition. -/
theorem smu_init_codename_unsupported_witness :
    (smu_init cenvBadCodename).ret = SMU_Return_Unsupported ∧
    (smu_init cenvBadCodename).channelOpenAttempted = false := by
  have h := smu_init_codename_unsupported cenvBadCodename rfl rfl (by decide)
    rfl rfl (by decide)
  exact ⟨h.2.1, h.2.2⟩

/-- C5 (amended): when the table-version file cannot be opened, discovery on a
freshly zeroed session returns OK with table support disabled, and every
subsequent table read with a nonzero declared length is rejected with
InsufficientSize, a non-OK result; the claim fails only for a declared length
of zero, which matches the zero table size and succeeds as a no-op. -/
theorem smu_init_parse_no_pm_version_disabled (e : InitEnv)
    (hv1 : e.versionOpen = true) (hv2 : e.versionRead.err = false)
    (hv3 : 3 ≤ (ver_scan e).1)
    (hc1 : e.codenameOpen = true) (hc2 : e.codenameRead.err = false)
    (hc3 : CODENAME_UNDEFINED < cn_val e) (hc4 : cn_val e < CODENAME_COUNT)
    (hpm : e.pmVersionOpen = false) :
    (smu_init_parse e zeroObj).1 = SMU_Return_OK ∧
    (smu_init_parse e zeroObj).2.pm_table_version = 0 ∧
    (smu_init_parse e zeroObj).2.pm_table_size = 0 ∧
    ∀ (dst_len : Nat) (r : ReadR), dst_len ≠ 0 →
      (smu_read_pm_table (smu_init_parse e zeroObj).2 dst_len r).ret =
        SMU_Return_InsufficientSize ∧
      (smu_read_pm_table (smu_init_parse e zeroObj).2 dst_len r).ret ≠
        SMU_Return_OK := by
  rw [smu_init_parse_reach_pm e zeroObj hv1 hv2 hv3 hc1 hc2 hc3 hc4]
  refine ⟨?_, ?_, ?_, fun dst_len r hne => ⟨?_, ?_⟩⟩
  · simp [pm_stage, hpm]
  · simp [pm_stage, hpm, zeroObj]
  · simp [pm_stage, hpm, zeroObj]
  · simp [pm_stage, hpm, zeroObj, smu_read_pm_table, hne]
  · simp [pm_stage, hpm, zeroObj, smu_read_pm_table, hne,
      SMU_Return_InsufficientSize, SMU_Return_OK]

/-- Witness for C5 (amended): the no-PM environment yields an OK discovery
with table support disabled and a rejected 100-byte table read. -/
theorem smu_init_parse_no_pm_version_disabled_witness :
    (smu_init_parse cenvNoPm.parse zeroObj).1 = SMU_Return_OK ∧
    (smu_read_pm_table (smu_init_parse cenvNoPm.parse zeroObj).2 100 ⟨false, []⟩).ret =
      SMU_Return_InsufficientSize := by
  have h := smu_init_parse_no_pm_version_disabled cenvNoPm.parse rfl rfl (by decide)
    rfl rfl (by decide) (by decide) rfl
  exact ⟨h.1, (h.2.2.2 100 ⟨false, []⟩ (by decide)).1⟩

/-- Counterexample for C5 as stated: a session discovered without a
table-version file (table support disabled) accepts a table read with declared
length zero, returning OK after performing a zero-byte read on the channel,
rather than rejecting every table read with a non-OK result. -/
theorem smu_read_pm_table_zero_len_silent_ok :
    (smu_init cenvNoPm).ret = SMU_Return_OK ∧
    (smu_init cenvNoPm).obj.pm_table_version = 0 ∧
    (smu_init cenvNoPm).obj.pm_table_size = 0 ∧
    (smu_read_pm_table (smu_init cenvNoPm).obj 0 ⟨false, []⟩).ret = SMU_Return_OK ∧
    (smu_read_pm_table (smu_init cenvNoPm).obj 0 ⟨false, []⟩).readAttempted = true := by
  refine ⟨rfl, rfl, rfl, rfl, rfl⟩

/-- C6: whenever the table-version file is present and read successfully but
the table-size file cannot be opened or its read returns a non-positive count,
discovery returns ReadWriteError, never success. -/
theorem smu_init_parse_pm_size_mandatory (e : InitEnv)
    (hv1 : e.versionOpen = true) (hv2 : e.versionRead.err = false)
    (hv3 : 3 ≤ (ver_scan e).1)
    (hc1 : e.codenameOpen = true) (hc2 : e.codenameRead.err = false)
    (hc3 : CODENAME_UNDEFINED < cn_val e) (hc4 : cn_val e < CODENAME_COUNT)
    (hpo : e.pmVersionOpen = true)
    (hpr : 0 < readRet e.pmVersionRead 4)
    (h : e.pmSizeOpen = false ∨ readRet e.pmSizeRead 4 ≤ 0) :
    (smu_init_parse e zeroObj).1 = SMU_Return_RWError := by
  rw [smu_init_parse_reach_pm e zeroObj hv1 hv2 hv3 hc1 hc2 hc3 hc4]
  have hnpr : ¬ readRet e.pmVersionRead 4 ≤ 0 := by omega
  rcases h with h | h
  · simp [pm_stage, hpo, hnpr, h]
  · by_cases hso : e.pmSizeOpen <;> simp [pm_stage, hpo, hnpr, hso, h]

/-- Witness for C6: readable PM-version file, unopenable PM-size file. -/
theorem smu_init_parse_pm_size_mandatory_witness :
    (smu_init_parse cenvNoSize zeroObj).1 = SMU_Return_RWError :=
  smu_init_parse_pm_size_mandatory cenvNoSize rfl rfl (by decide) rfl rfl
    (by decide) (by decide) rfl (by decide) (Or.inl rfl)

/-- C10: during discovery the reads of the pm_table_version and pm_table_size
files are treated as successful for any positive returned byte count,
including counts smaller than 4: a non-positive count at either read yields
ReadWriteError, while positive counts leave each 32-bit field equal to the
little-endian value of just the delivered bytes (the remaining bytes staying
at their prior zeroed value) and discovery returns OK. -/
theorem smu_init_parse_short_pm_reads (e : InitEnv)
    (hv1 : e.versionOpen = true) (hv2 : e.versionRead.err = false)
    (hv3 : 3 ≤ (ver_scan e).1)
    (hc1 : e.codenameOpen = true) (hc2 : e.codenameRead.err = false)
    (hc3 : CODENAME_UNDEFINED < cn_val e) (hc4 : cn_val e < CODENAME_COUNT)
    (hpo : e.pmVersionOpen = true) :
    (readRet e.pmVersionRead 4 ≤ 0 →
      (smu_init_parse e zeroObj).1 = SMU_Return_RWError) ∧
    (0 < readRet e.pmVersionRead 4 → e.pmSizeOpen = true →
      readRet e.pmSizeRead 4 ≤ 0 →
      (smu_init_parse e zeroObj).1 = SMU_Return_RWError) ∧
    (0 < readRet e.pmVersionRead 4 → e.pmSizeOpen = true →
      0 < readRet e.pmSizeRead 4 →
      (smu_init_parse e zeroObj).1 = SMU_Return_OK ∧
      (smu_init_parse e zeroObj).2.pm_table_version =
        bytesLE (readData e.pmVersionRead 4) ∧
      (smu_init_parse e zeroObj).2.pm_table_size =
        bytesLE (readData e.pmSizeRead 4)) := by
  rw [smu_init_parse_reach_pm e zeroObj hv1 hv2 hv3 hc1 hc2 hc3 hc4]
  refine ⟨fun h => ?_, fun h1 h2 h3 => ?_, fun h1 h2 h3 => ?_⟩
  · simp [pm_stage, hpo, h]
  · have hn1 : ¬ readRet e.pmVersionRead 4 ≤ 0 := by omega
    simp [pm_stage, hpo, hn1, h2, h3]
  · have hn1 : ¬ readRet e.pmVersionRead 4 ≤ 0 := by omega
    have hn2 : ¬ readRet e.pmSizeRead 4 ≤ 0 := by omega
    simp [pm_stage, hpo, hn1, h2, hn2, zeroObj, setLowBytesLE_zero]

/-- Witness for C10: a one-byte PM-version read (value 7) and a four-byte
PM-size read encoding 4096 give an OK discovery with those field values. -/
theorem smu_init_parse_short_pm_reads_witness :
    (smu_init_parse cenvShortPm zeroObj).1 = SMU_Return_OK ∧
    (smu_init_parse cenvShortPm zeroObj).2.pm_table_version = 7 ∧
    (smu_init_parse cenvShortPm zeroObj).2.pm_table_size = 4096 := by
  have h := (smu_init_parse_short_pm_reads cenvShortPm rfl rfl (by decide) rfl rfl
    (by decide) (by decide) rfl).2.2 (by decide) rfl (by decide)
  exact ⟨h.1, h.2.1.trans (by decide), h.2.2.trans (by decide)⟩

end RyzenSmu
